import Mathlib

/-!
Verification development for the `use-hotkeys` pattern core
(`src/hotkeys-patterns.ts`): parsing hotkey pattern strings, matching
keyboard events against parsed patterns, the stateful sequence
recognizer built by `createHotkeyHandler`, and pattern formatting.

The TypeScript source is embedded shallowly:

* JavaScript strings are Lean `String`s; `split`, `trim`,
  `toLowerCase`, `toUpperCase` are reimplemented structurally on the
  character list (ASCII-faithful, which covers every token the pattern
  language recognizes).
* The ambient `detectPlatform()` probe is passed in explicitly as an
  `env : Platform` argument (the value `detectPlatform()` would have
  returned), keeping every function pure.
* The mutable closure state of the sequence recognizer
  (`index`, `timer`) becomes an explicit `SeqState`; the
  `window.setTimeout` reset callback armed for `sequenceTimeoutMs`
  becomes an absolute due time (`deadline`), and the event-loop fact
  that a due timer callback runs before any later-dispatched keyboard
  event is modelled by resolving the deadline at the head of each
  event's processing (`seqHandlerStep`).
* Invoking the handler callback is modelled as the `Bool` result of
  `seqHandlerStep` (and counted by `seqRunCount`).
-/

namespace Hotkeys

/-- Split a character list at every occurrence of `sep`, keeping empty
segments, as JavaScript `String.prototype.split` does with a
one-character separator. -/
def splitCharList (sep : Char) : List Char → List (List Char)
  | [] => [[]]
  | c :: rest =>
    let r := splitCharList sep rest
    if c = sep then [] :: r
    else
      match r with
      | [] => [[c]]
      | s :: ss => (c :: s) :: ss

/-- JavaScript `s.split(sep)` for a one-character separator. -/
def splitOnChar (sep : Char) (s : String) : List String :=
  (splitCharList sep s.data).map String.mk

/-- JavaScript `s.trim()` (whitespace at both ends removed). -/
def trimStr (s : String) : String :=
  String.mk (((s.data.dropWhile Char.isWhitespace).reverse.dropWhile
    Char.isWhitespace).reverse)

/-- JavaScript `s.toLowerCase()` (ASCII). -/
def toLowerStr (s : String) : String :=
  String.mk (s.data.map Char.toLower)

/-- JavaScript `s.toUpperCase()` (ASCII). -/
def toUpperStr (s : String) : String :=
  String.mk (s.data.map Char.toUpper)

/-- JavaScript `s.charAt(0).toUpperCase() + s.slice(1)`. -/
def capitalizeFirst (s : String) : String :=
  match s.data with
  | [] => ""
  | c :: cs => String.mk (Char.toUpper c :: cs)

/-- JavaScript `[x₁, …].join(sep)`. -/
def joinSep (sep : String) : List String → String
  | [] => ""
  | [x] => x
  | x :: xs => x ++ sep ++ joinSep sep xs

/-- `type Platform = "mac" | "windows" | "linux" | "unknown"`. -/
inductive Platform where
  | mac
  | windows
  | linux
  | unknown
deriving DecidableEq, Repr

/-- One parsed shortcut unit (the element type of
`ParsedPattern.sequence`, also the result of `parseSingle`). -/
structure Step where
  key : Option String
  ctrl : Bool
  meta : Bool
  shift : Bool
  alt : Bool
deriving DecidableEq, Repr

/-- `type ParsedPattern` from the source. -/
structure ParsedPattern where
  key : Option String
  ctrl : Bool
  meta : Bool
  shift : Bool
  alt : Bool
  isSequence : Bool
  sequence : List Step
deriving DecidableEq, Repr

/-- `type MatchOptions`; absent optional fields are `none`. -/
structure MatchOptions where
  platform : Option Platform := none
  caseSensitive : Option Bool := none
  treatModAsPlatformMeta : Option Bool := none
deriving DecidableEq, Repr

/-- `type FormatOptions`; absent optional fields are `none`. -/
structure FormatOptions where
  platform : Option Platform := none
  useSymbols : Option Bool := none
  separator : Option String := none
deriving DecidableEq, Repr

/-- The slice of a DOM `KeyboardEvent` the source reads (`!!` coercions
already applied to the modifier flags). -/
structure KeyboardEvent where
  key : String
  ctrlKey : Bool
  metaKey : Bool
  shiftKey : Bool
  altKey : Bool
deriving DecidableEq, Repr

/-- `const specialKeyMap` as a lookup function. -/
def specialKeyMap (s : String) : Option String :=
  if s = "esc" then some "Escape"
  else if s = "escape" then some "Escape"
  else if s = "enter" then some "Enter"
  else if s = "return" then some "Enter"
  else if s = "tab" then some "Tab"
  else if s = "space" then some " "
  else if s = "spacebar" then some " "
  else if s = "backspace" then some "Backspace"
  else if s = "delete" then some "Delete"
  else if s = "del" then some "Delete"
  else if s = "arrowup" then some "ArrowUp"
  else if s = "up" then some "ArrowUp"
  else if s = "arrowdown" then some "ArrowDown"
  else if s = "down" then some "ArrowDown"
  else if s = "arrowleft" then some "ArrowLeft"
  else if s = "left" then some "ArrowLeft"
  else if s = "arrowright" then some "ArrowRight"
  else if s = "right" then some "ArrowRight"
  else if s = "pageup" then some "PageUp"
  else if s = "pagedown" then some "PageDown"
  else if s = "home" then some "Home"
  else if s = "end" then some "End"
  else none

/-- The codomain of `modifierAliases`. -/
inductive ModAlias where
  | ctrl
  | meta
  | shift
  | alt
  | mod
deriving DecidableEq, Repr

/-- `const modifierAliases` as a lookup function. -/
def modifierAliases (s : String) : Option ModAlias :=
  if s = "control" then some .ctrl
  else if s = "ctrl" then some .ctrl
  else if s = "command" then some .meta
  else if s = "cmd" then some .meta
  else if s = "meta" then some .meta
  else if s = "shift" then some .shift
  else if s = "option" then some .alt
  else if s = "alt" then some .alt
  else if s = "mod" then some .mod
  else none

/-- `normalizeKeyName(raw, caseSensitive)` from the source. -/
def normalizeKeyName (raw : String) (caseSensitive : Bool) : String :=
  let k := trimStr raw
  let lower := toLowerStr k
  match specialKeyMap lower with
  | some v => v
  | none =>
    if lower.data.length = 1 then (if caseSensitive then k else lower)
    else if caseSensitive then k
    else if k.data.length = 1 then lower
    else capitalizeFirst k

/-- One iteration of the token loop in `parseSingle`: recognized
modifier aliases set their boolean; the platform-dependent `mod` alias
applies only when `treatModAsPlatformMeta` holds (otherwise it falls
through, like any unrecognized token, to the key assignment). -/
def parseToken (platform : Platform) (caseSensitive : Bool)
    (treatModAsPlatformMeta : Bool) (acc : Step) (token : String) : Step :=
  match modifierAliases (toLowerStr token) with
  | some .mod =>
    if treatModAsPlatformMeta then
      if platform = .mac then { acc with meta := true }
      else { acc with ctrl := true }
    else { acc with key := some (normalizeKeyName token caseSensitive) }
  | some .ctrl => { acc with ctrl := true }
  | some .meta => { acc with meta := true }
  | some .shift => { acc with shift := true }
  | some .alt => { acc with alt := true }
  | none => { acc with key := some (normalizeKeyName token caseSensitive) }

/-- `parseSingle(pattern, options)` from the source; `env` is the value
`detectPlatform()` would return. -/
def parseSingle (env : Platform) (pattern : String)
    (options : MatchOptions) : Step :=
  let platform := options.platform.getD env
  let caseSensitive := options.caseSensitive.getD false
  let treatModAsPlatformMeta := options.treatModAsPlatformMeta.getD true
  let tokens := ((splitOnChar '+' pattern).map trimStr).filter (· ≠ "")
  tokens.foldl (parseToken platform caseSensitive treatModAsPlatformMeta)
    { key := none, ctrl := false, meta := false, shift := false, alt := false }

/-- The `sequenceParts` computation at the head of `parsePattern`:
split on single spaces, trim, drop empties. -/
def sequenceParts (pattern : String) : List String :=
  ((splitOnChar ' ' pattern).map trimStr).filter (· ≠ "")

/-- `parsePattern(pattern, options)` from the source. -/
def parsePattern (env : Platform) (pattern : String)
    (options : MatchOptions) : ParsedPattern :=
  if (sequenceParts pattern).length ≤ 1 then
    let single := parseSingle env pattern options
    { key := single.key, ctrl := single.ctrl, meta := single.meta,
      shift := single.shift, alt := single.alt,
      isSequence := false, sequence := [single] }
  else
    { key := none, ctrl := false, meta := false, shift := false, alt := false,
      isSequence := true,
      sequence := (sequenceParts pattern).map (fun p => parseSingle env p options) }

/-- `eventKeyComparable(event, caseSensitive)` from the source. -/
def eventKeyComparable (event : KeyboardEvent) (caseSensitive : Bool) :
    String :=
  if event.key.data.length = 1 then
    (if caseSensitive then event.key else toLowerStr event.key)
  else event.key

/-- `matchHotkey(event, pattern, options)` from the source. -/
def matchHotkey (env : Platform) (event : KeyboardEvent) (pattern : String)
    (options : MatchOptions) : Bool :=
  let parsed := parsePattern env pattern options
  if parsed.isSequence then false
  else
    let caseSensitive := options.caseSensitive.getD false
    if parsed.ctrl != event.ctrlKey then false
    else if parsed.meta != event.metaKey then false
    else if parsed.shift != event.shiftKey then false
    else if parsed.alt != event.altKey then false
    else
      match parsed.key with
      | none => true
      | some k =>
        decide (eventKeyComparable event caseSensitive =
          (if k.data.length = 1
            then (if caseSensitive then k else toLowerStr k)
            else k))

/-- `matchAnyHotkey(event, patterns, options)`: ordered,
short-circuiting disjunction over the (possibly singleton) list. -/
def matchAnyHotkey (env : Platform) (event : KeyboardEvent)
    (patterns : List String) (options : MatchOptions) : Bool :=
  patterns.any (fun p => matchHotkey env event p options)

/-- `type HotkeyPattern`: a plain string, a list of strings, or a
`{patterns, sequenceTimeoutMs?}` configuration object. -/
inductive HotkeyPattern where
  | str : String → HotkeyPattern
  | list : List String → HotkeyPattern
  | config : (patterns : List String) → (isArray : Bool) →
      (sequenceTimeoutMs : Option Nat) → HotkeyPattern
deriving DecidableEq, Repr

/-- The `patterns` field normalized to a list (the source's
`Array.isArray(list) ? list : [list]`). -/
def HotkeyPattern.normalized : HotkeyPattern → List String
  | .str s => [s]
  | .list l => l
  | .config ps _ _ => ps

/-- The `sequenceTimeoutMs` the source computes: `0` on the plain
string/array paths, else the configured value defaulted to `600`. -/
def HotkeyPattern.timeoutMs : HotkeyPattern → Nat
  | .str _ => 0
  | .list _ => 0
  | .config _ _ t => t.getD 600

/-- The per-event step comparison inlined in the sequence branch of
`createHotkeyHandler` (`modMatch && keyMatch`). -/
def matchesStep (caseSensitive : Bool) (current : Step)
    (event : KeyboardEvent) : Bool :=
  let modMatch :=
    (current.ctrl == event.ctrlKey) && (current.meta == event.metaKey) &&
    (current.shift == event.shiftKey) && (current.alt == event.altKey)
  let keyMatch :=
    match current.key with
    | none => true
    | some k =>
      decide (eventKeyComparable event caseSensitive =
        (if k.data.length = 1
          then (if caseSensitive then k else toLowerStr k)
          else k))
  modMatch && keyMatch

/-- The recognizer's closure state: the source's mutable `index` and
`timer`, the latter as the absolute due time of the armed
`setTimeout` reset callback (`none` ↔ `timer === null`). -/
structure SeqState where
  index : Nat
  deadline : Option Nat
deriving DecidableEq, Repr

/-- A keyboard event together with its arrival time, the clock also
read by `setTimeout`. -/
structure TimedEvent where
  time : Nat
  event : KeyboardEvent
deriving DecidableEq, Repr

/-- The fallback step for `seq[index]`; the recognizer keeps
`index < seq.length`, so it is never consulted from a reachable
state. -/
def emptyStep : Step :=
  { key := none, ctrl := false, meta := false, shift := false, alt := false }

/-- One invocation of the event closure returned by
`createHotkeyHandler` for a sequence registration, on an event arriving
at `e.time`. First the armed reset callback runs if its due time has
passed (the event loop runs a due timer before a later keyboard
event); then the source's `modMatch && keyMatch` branch: on a final
match, signal the handler (the `Bool` result), clear the timer and
reset the index; on a non-final match, advance and re-arm the timer
`timeoutMs` from now; on a mismatch, clear the timer and reset. -/
def seqHandlerStep (seq : List Step) (caseSensitive : Bool)
    (timeoutMs : Nat) (st : SeqState) (e : TimedEvent) : SeqState × Bool :=
  let st : SeqState :=
    match st.deadline with
    | some d => if d ≤ e.time then { index := 0, deadline := none } else st
    | none => st
  let current := seq.getD st.index emptyStep
  if matchesStep caseSensitive current e.event then
    if st.index + 1 = seq.length then ({ index := 0, deadline := none }, true)
    else ({ index := st.index + 1, deadline := some (e.time + timeoutMs) },
      false)
  else ({ index := 0, deadline := none }, false)

/-- Feed a timed event stream, in arrival order, through the sequence
recognizer; counts how many times the handler callback is invoked. -/
def seqRunCount (seq : List Step) (caseSensitive : Bool) (timeoutMs : Nat) :
    SeqState → List TimedEvent → Nat
  | _, [] => 0
  | st, e :: rest =>
    let r := seqHandlerStep seq caseSensitive timeoutMs st e
    (if r.2 then 1 else 0) + seqRunCount seq caseSensitive timeoutMs r.1 rest

/-- The handler `createHotkeyHandler` returns: either the sequence
recognizer closure (with its captured sequence steps, case flag and
timeout) or the simple `matchAnyHotkey` closure (with its captured
pattern list and resolved options). -/
inductive HandlerModel where
  | seqHandler : (seq : List Step) → (caseSensitive : Bool) →
      (timeoutMs : Nat) → HandlerModel
  | simple : (patterns : List String) → (options : MatchOptions) →
      HandlerModel
deriving DecidableEq, Repr

/-- `createHotkeyHandler(patterns, handler, options)` from the source,
up to the closure it returns (captured data; its per-event behavior is
`runHandlerCount`). -/
def createHotkeyHandler (env : Platform) (patterns : HotkeyPattern)
    (options : MatchOptions) : HandlerModel :=
  let platform := options.platform.getD env
  let sequenceTimeoutMs := patterns.timeoutMs
  let normalized := patterns.normalized
  if normalized.any (fun p => (parsePattern env p options).isSequence) then
    let firstSeq :=
      (normalized.find? (fun p => (parsePattern env p options).isSequence)).getD ""
    .seqHandler (parsePattern env firstSeq options).sequence
      (options.caseSensitive.getD false) sequenceTimeoutMs
  else
    .simple normalized { options with platform := some platform }

/-- Feed a timed event stream through the handler returned by
`createHotkeyHandler`; counts handler-callback invocations. -/
def runHandlerCount (env : Platform) (h : HandlerModel)
    (evs : List TimedEvent) : Nat :=
  match h with
  | .seqHandler seq cs t =>
    seqRunCount seq cs t ({ index := 0, deadline := none } : SeqState) evs
  | .simple pats opts =>
    (evs.filter (fun e => matchAnyHotkey env e.event pats opts)).length

/-- `formatPattern(pattern, options)` from the source. -/
def formatPattern (env : Platform) (pattern : String)
    (options : FormatOptions) : String :=
  let platform := options.platform.getD env
  let useSymbols := options.useSymbols.getD (platform = .mac)
  let separator := options.separator.getD (if useSymbols then "" else " + ")
  let parsed := parsePattern env pattern { platform := some platform }
  let ctrlLabel := if useSymbols then "⌃" else "Ctrl"
  let metaLabel :=
    if useSymbols then "⌘" else if platform = .mac then "Command" else "Meta"
  let shiftLabel := if useSymbols then "⇧" else "Shift"
  let altLabel :=
    if useSymbols then "⌥" else if platform = .mac then "Option" else "Alt"
  let toKeyLabel := fun (k : String) =>
    if k = " " then (if useSymbols then "␣" else "Space")
    else if k.data.length = 1 then toUpperStr k else k
  let stepTokens := fun (key : Option String) (ctrl meta shift alt : Bool) =>
    (if ctrl then [ctrlLabel] else []) ++
    (if meta then [metaLabel] else []) ++
    (if shift then [shiftLabel] else []) ++
    (if alt then [altLabel] else []) ++
    (match key with
      | some k => if k = "" then [] else [toKeyLabel k]
      | none => [])
  if parsed.isSequence = false then
    joinSep separator
      (stepTokens parsed.key parsed.ctrl parsed.meta parsed.shift parsed.alt)
  else
    joinSep (if useSymbols then " " else " then ")
      (parsed.sequence.map (fun p =>
        joinSep separator (stepTokens p.key p.ctrl p.meta p.shift p.alt)))

/-! Concrete fixtures used by several theorems: plain key presses and
the parsed step lists of the sequences `"g g"` and `"g h"`. -/

/-- A plain `g` key press with no modifiers held. -/
def gEv : KeyboardEvent :=
  { key := "g", ctrlKey := false, metaKey := false, shiftKey := false,
    altKey := false }

/-- A plain `x` key press with no modifiers held. -/
def xEv : KeyboardEvent :=
  { key := "x", ctrlKey := false, metaKey := false, shiftKey := false,
    altKey := false }

/-- A plain `h` key press with no modifiers held. -/
def hEv : KeyboardEvent :=
  { key := "h", ctrlKey := false, metaKey := false, shiftKey := false,
    altKey := false }

/-- A `k` key press with only Control held. -/
def ctrlKEv : KeyboardEvent :=
  { key := "k", ctrlKey := true, metaKey := false, shiftKey := false,
    altKey := false }

/-- The step list of the parsed sequence `"g g"`. -/
def gSeq : List Step := (parsePattern .unknown "g g" {}).sequence

/-- The step list of the parsed sequence `"g h"`. -/
def ghSeq : List Step := (parsePattern .unknown "g h" {}).sequence

/-! Helper lemmas shared by the claim theorems. -/

/-- A pattern that does not parse as a sequence parses to the single
step of `parseSingle`, duplicated at the top level and as the sole
`sequence` element. -/
lemma parsePattern_eq_single (env : Platform) (pattern : String)
    (opts : MatchOptions)
    (h : (parsePattern env pattern opts).isSequence = false) :
    parsePattern env pattern opts =
      { key := (parseSingle env pattern opts).key,
        ctrl := (parseSingle env pattern opts).ctrl,
        meta := (parseSingle env pattern opts).meta,
        shift := (parseSingle env pattern opts).shift,
        alt := (parseSingle env pattern opts).alt,
        isSequence := false,
        sequence := [parseSingle env pattern opts] } := by
  by_cases hc : (sequenceParts pattern).length ≤ 1
  · simp [parsePattern, hc]
  · exfalso
    simp [parsePattern, hc] at h

/-- A pattern that parses as a sequence has all-trivial top-level
fields and maps `parseSingle` over at least two step strings. -/
lemma parsePattern_eq_seq (env : Platform) (pattern : String)
    (opts : MatchOptions)
    (h : (parsePattern env pattern opts).isSequence = true) :
    parsePattern env pattern opts =
      { key := none, ctrl := false, meta := false, shift := false,
        alt := false, isSequence := true,
        sequence :=
          (sequenceParts pattern).map (fun p => parseSingle env p opts) } ∧
      2 ≤ (sequenceParts pattern).length := by
  by_cases hc : (sequenceParts pattern).length ≤ 1
  · exfalso
    simp [parsePattern, hc] at h
  · exact ⟨by simp [parsePattern, hc], by omega⟩

/-- `matchHotkey` written as one boolean conjunction over the parsed
pattern's fields. -/
lemma matchHotkey_eq_and (env : Platform) (ev : KeyboardEvent)
    (pattern : String) (opts : MatchOptions) :
    matchHotkey env ev pattern opts =
      (!(parsePattern env pattern opts).isSequence &&
       ((parsePattern env pattern opts).ctrl == ev.ctrlKey) &&
       ((parsePattern env pattern opts).meta == ev.metaKey) &&
       ((parsePattern env pattern opts).shift == ev.shiftKey) &&
       ((parsePattern env pattern opts).alt == ev.altKey) &&
       (match (parsePattern env pattern opts).key with
        | none => true
        | some k =>
          decide (eventKeyComparable ev (opts.caseSensitive.getD false) =
            (if k.data.length = 1
              then (if opts.caseSensitive.getD false then k else toLowerStr k)
              else k)))) := by
  simp only [matchHotkey]
  generalize parsePattern env pattern opts = P
  cases hseq : P.isSequence <;>
  cases hc : P.ctrl == ev.ctrlKey <;>
  cases hm : P.meta == ev.metaKey <;>
  cases hs : P.shift == ev.shiftKey <;>
  cases ha : P.alt == ev.altKey <;>
  simp [hseq, hc, hm, hs, ha, bne]

/-- The step comparison inlined in the recognizer agrees with the
boolean conjunction shape. -/
lemma matchesStep_eq_and (cs : Bool) (s : Step) (ev : KeyboardEvent) :
    matchesStep cs s ev =
      ((s.ctrl == ev.ctrlKey) && (s.meta == ev.metaKey) &&
       (s.shift == ev.shiftKey) && (s.alt == ev.altKey) &&
       (match s.key with
        | none => true
        | some k =>
          decide (eventKeyComparable ev cs =
            (if k.data.length = 1
              then (if cs then k else toLowerStr k)
              else k)))) := rfl

/-- `find?` on a list whose prefix wholly fails the predicate returns
the first later hit. -/
lemma find?_append_first {f : String → Bool} :
    ∀ (l₁ : List String) (s : String) (l₂ : List String),
      (∀ p ∈ l₁, f p = false) → f s = true →
      (l₁ ++ s :: l₂).find? f = some s := by
  intro l₁
  induction l₁ with
  | nil => intro s l₂ _ hs; simp [List.find?, hs]
  | cons a l ih =>
    intro s l₂ hall hs
    have ha : f a = false := hall a (by simp)
    simp only [List.cons_append, List.find?, ha]
    exact ih s l₂ (fun p hp => hall p (by simp [hp])) hs

/-- With a zero timeout, the deadline armed after a matched non-final
step is already due at any later instant, so the recognizer's progress
is reset before every subsequent event: a genuine sequence (two or
more steps) never completes on a time-ordered stream. -/
lemma seqRunCount_zero_timeout (seq : List Step) (cs : Bool)
    (h2 : 2 ≤ seq.length) :
    ∀ (evs : List TimedEvent) (st : SeqState),
      List.Pairwise (fun a b => a.time ≤ b.time) evs →
      ((st.index = 0 ∧ st.deadline = none) ∨
        (∃ d, st.deadline = some d ∧ ∀ e ∈ evs, d ≤ e.time)) →
      seqRunCount seq cs 0 st evs = 0 := by
  intro evs
  induction evs with
  | nil => intro st _ _; rfl
  | cons e rest ih =>
    intro st hpw hinv
    have hpw' : List.Pairwise (fun a b => a.time ≤ b.time) rest :=
      (List.pairwise_cons.mp hpw).2
    have hhead : ∀ a ∈ rest, e.time ≤ a.time :=
      (List.pairwise_cons.mp hpw).1
    have hone : 1 ≠ seq.length := by omega
    have hstep : seqHandlerStep seq cs 0 st e =
        (if matchesStep cs (seq.getD 0 emptyStep) e.event then
          (({ index := 1, deadline := some e.time } : SeqState), false)
        else (({ index := 0, deadline := none } : SeqState), false)) := by
      rcases hinv with ⟨hi, hd⟩ | ⟨d, hd, hall⟩
      · simp [seqHandlerStep, hd, hi, hone]
      · have hde : d ≤ e.time := hall e (by simp)
        simp [seqHandlerStep, hd, hde, hone]
    simp only [seqRunCount]
    rw [hstep]
    by_cases hm : matchesStep cs (seq.getD 0 emptyStep) e.event = true
    · rw [if_pos hm]
      simpa using ih _ hpw' (Or.inr ⟨e.time, rfl, hhead⟩)
    · rw [if_neg hm]
      simpa using ih _ hpw' (Or.inl ⟨rfl, rfl⟩)

/-- When the incoming event arrives strictly before any recorded
deadline (or none is armed), the timer callback has not run, and one
recognizer step is exactly the source's `modMatch && keyMatch`
branch. -/
lemma seqHandlerStep_live (seq : List Step) (cs : Bool) (timeoutMs : Nat)
    (st : SeqState) (e : TimedEvent)
    (hd : st.deadline = none ∨ ∃ d, st.deadline = some d ∧ e.time < d) :
    seqHandlerStep seq cs timeoutMs st e =
      (if matchesStep cs (seq.getD st.index emptyStep) e.event then
        if st.index + 1 = seq.length then
          (({ index := 0, deadline := none } : SeqState), true)
        else
          (({ index := st.index + 1,
              deadline := some (e.time + timeoutMs) } : SeqState), false)
      else (({ index := 0, deadline := none } : SeqState), false)) := by
  obtain ⟨i, dl⟩ := st
  rcases hd with hd | ⟨d, hd, hlt⟩
  · have h0 : dl = none := hd
    subst h0
    rfl
  · have h0 : dl = some d := hd
    subst h0
    have hnle : ¬ d ≤ e.time := by omega
    simp only [seqHandlerStep]
    rw [if_neg hnle]

/-- Claim C1: for every state whose recorded deadline has not yet
passed at the incoming event's arrival, the recognizer transition is:
match at the last step — handler invoked (the `true` signal), timer
cancelled, index reset to 0; match at an earlier step — index
incremented and a fresh deadline `timeoutMs` from now replacing any
prior one; mismatch — index reset to 0, timer cancelled, no
invocation. Consequently `['g','g']` within the window fires exactly
once and `['g','x','g']` never fires. -/
theorem sequence_recognizer_transition :
    (∀ (seq : List Step) (cs : Bool) (timeoutMs : Nat) (st : SeqState)
        (e : TimedEvent),
      (st.deadline = none ∨ ∃ d, st.deadline = some d ∧ e.time < d) →
      ((matchesStep cs (seq.getD st.index emptyStep) e.event = true →
          st.index + 1 = seq.length →
          seqHandlerStep seq cs timeoutMs st e =
            (({ index := 0, deadline := none } : SeqState), true)) ∧
       (matchesStep cs (seq.getD st.index emptyStep) e.event = true →
          st.index + 1 ≠ seq.length →
          seqHandlerStep seq cs timeoutMs st e =
            (({ index := st.index + 1,
                deadline := some (e.time + timeoutMs) } : SeqState), false)) ∧
       (matchesStep cs (seq.getD st.index emptyStep) e.event = false →
          seqHandlerStep seq cs timeoutMs st e =
            (({ index := 0, deadline := none } : SeqState), false)))) ∧
    seqRunCount gSeq false 600 { index := 0, deadline := none }
      [{ time := 0, event := gEv }, { time := 100, event := gEv }] = 1 ∧
    seqRunCount gSeq false 600 { index := 0, deadline := none }
      [{ time := 0, event := gEv }, { time := 100, event := xEv },
       { time := 200, event := gEv }] = 0 := by
  refine ⟨?_, by decide, by decide⟩
  intro seq cs timeoutMs st e hd
  refine ⟨?_, ?_, ?_⟩
  · intro h1 h2
    rw [seqHandlerStep_live seq cs timeoutMs st e hd, if_pos h1, if_pos h2]
  · intro h1 h2
    rw [seqHandlerStep_live seq cs timeoutMs st e hd, if_pos h1, if_neg h2]
  · intro h1
    have hneg : ¬ (matchesStep cs (seq.getD st.index emptyStep) e.event = true) := by
      rw [h1]
      exact Bool.false_ne_true
    rw [seqHandlerStep_live seq cs timeoutMs st e hd, if_neg hneg]

/-- Claim C1 witness: from the idle state, a matching first `g` of
`"g g"` at time 0 advances to index 1 with a deadline at 600 and does
not invoke the handler. -/
theorem sequence_recognizer_transition_witness :
    seqHandlerStep gSeq false 600 { index := 0, deadline := none }
      { time := 0, event := gEv } =
      (({ index := 1, deadline := some 600 } : SeqState), false) := by
  have h := (sequence_recognizer_transition.1 gSeq false 600
    { index := 0, deadline := none } { time := 0, event := gEv }
    (Or.inl rfl)).2.1 (by decide) (by decide)
  exact h

/-- Claim C10: an event that fails the current step while the index is
positive is consumed by the reset — the state becomes index 0 with no
timer and the handler is not invoked — even when that very event would
match step 0; hence `"g h"` fed `['g','g','h']` never fires. -/
theorem failed_step_consumes_event :
    (∀ (seq : List Step) (cs : Bool) (timeoutMs : Nat) (st : SeqState)
        (e : TimedEvent),
      0 < st.index →
      (st.deadline = none ∨ ∃ d, st.deadline = some d ∧ e.time < d) →
      matchesStep cs (seq.getD st.index emptyStep) e.event = false →
      matchesStep cs (seq.getD 0 emptyStep) e.event = true →
      seqHandlerStep seq cs timeoutMs st e =
        (({ index := 0, deadline := none } : SeqState), false)) ∧
    seqRunCount ghSeq false 600 { index := 0, deadline := none }
      [{ time := 0, event := gEv }, { time := 100, event := gEv },
       { time := 200, event := hEv }] = 0 := by
  refine ⟨?_, by decide⟩
  intro seq cs timeoutMs st e _ hd h1 _
  have hneg : ¬ (matchesStep cs (seq.getD st.index emptyStep) e.event = true) := by
    rw [h1]
    exact Bool.false_ne_true
  rw [seqHandlerStep_live seq cs timeoutMs st e hd, if_neg hneg]

/-- Claim C10 witness: at index 1 of `"g h"`, a `g` press (which does
match step 0) resets to the idle state without invoking the handler. -/
theorem failed_step_consumes_event_witness :
    seqHandlerStep ghSeq false 600 { index := 1, deadline := none }
      { time := 0, event := gEv } =
      (({ index := 0, deadline := none } : SeqState), false) :=
  failed_step_consumes_event.1 ghSeq false 600
    { index := 1, deadline := none } { time := 0, event := gEv }
    (by decide) (Or.inl rfl) (by decide) (by decide)

/-- Claim C3 counterexample: a plain-string registration of `"g g"`
gets `sequenceTimeoutMs = 0`; on two in-order matching `g` presses
1000 ms apart — a stream the claim says still fires the handler — the
handler is never invoked, because the zero-delay reset timer armed at
the first press is due before the second press arrives. -/
theorem zero_timeout_claim_counterexample :
    runHandlerCount .unknown (createHotkeyHandler .unknown (.str "g g") {})
      [{ time := 0, event := gEv }, { time := 1000, event := gEv }] = 0 := by
  decide

/-- Claim C3 amended: with `sequenceTimeoutMs = 0` the recognizer
still arms a reset timer after each matched non-final step, and that
timer is due immediately, so progress is reset before every later
event: a sequence of at least two steps never completes on any
time-ordered stream — sequence detection is effectively disabled, not
an unbounded window. The plain string path indeed builds the sequence
recognizer with timeout 0. -/
theorem zero_timeout_disables_sequences :
    (∀ (seq : List Step) (cs : Bool) (evs : List TimedEvent),
       2 ≤ seq.length →
       List.Pairwise (fun a b => a.time ≤ b.time) evs →
       seqRunCount seq cs 0 { index := 0, deadline := none } evs = 0) ∧
    (∀ (env : Platform) (s : String) (opts : MatchOptions),
       (parsePattern env s opts).isSequence = true →
       createHotkeyHandler env (.str s) opts =
         .seqHandler (parsePattern env s opts).sequence
           (opts.caseSensitive.getD false) 0) := by
  constructor
  · intro seq cs evs h2 hpw
    exact seqRunCount_zero_timeout seq cs h2 evs _ hpw (Or.inl ⟨rfl, rfl⟩)
  · intro env s opts h
    simp [createHotkeyHandler, HotkeyPattern.normalized,
      HotkeyPattern.timeoutMs, List.find?, h]

/-- Claim C3 witness: the zero-timeout recognizer for `"g g"` fires
zero times on two matching presses 5 ms apart. -/
theorem zero_timeout_disables_sequences_witness :
    seqRunCount gSeq false 0 { index := 0, deadline := none }
      [{ time := 0, event := gEv }, { time := 5, event := gEv }] = 0 :=
  zero_timeout_disables_sequences.1 gSeq false
    [{ time := 0, event := gEv }, { time := 5, event := gEv }]
    (by decide) (by decide)

/-- Claim C2: for a non-sequence pattern, `matchHotkey` succeeds only
when the event's four modifier flags equal the pattern's booleans
component-wise (so an extra held modifier is a non-match); when the
parsed key is null, that exact modifier equality alone suffices; and
concretely a `Ctrl+Shift+k` event does not match `"Control+k"`. -/
theorem matchHotkey_exact_modifiers :
    (∀ (env : Platform) (ev : KeyboardEvent) (pattern : String)
        (opts : MatchOptions),
      (parsePattern env pattern opts).isSequence = false →
      matchHotkey env ev pattern opts = true →
        ev.ctrlKey = (parsePattern env pattern opts).ctrl ∧
        ev.metaKey = (parsePattern env pattern opts).meta ∧
        ev.shiftKey = (parsePattern env pattern opts).shift ∧
        ev.altKey = (parsePattern env pattern opts).alt) ∧
    (∀ (env : Platform) (ev : KeyboardEvent) (pattern : String)
        (opts : MatchOptions),
      (parsePattern env pattern opts).isSequence = false →
      (parsePattern env pattern opts).key = none →
      ev.ctrlKey = (parsePattern env pattern opts).ctrl →
      ev.metaKey = (parsePattern env pattern opts).meta →
      ev.shiftKey = (parsePattern env pattern opts).shift →
      ev.altKey = (parsePattern env pattern opts).alt →
      matchHotkey env ev pattern opts = true) ∧
    (∀ env : Platform, matchHotkey env
      { key := "k", ctrlKey := true, metaKey := false, shiftKey := true,
        altKey := false } "Control+k" {} = false) := by
  refine ⟨?_, ?_, fun _ => rfl⟩
  · intro env ev pattern opts hseq hm
    rw [matchHotkey_eq_and] at hm
    simp only [hseq, Bool.not_false, Bool.true_and, Bool.and_eq_true,
      beq_iff_eq] at hm
    exact ⟨hm.1.1.1.1.symm, hm.1.1.1.2.symm, hm.1.1.2.symm, hm.1.2.symm⟩
  · intro env ev pattern opts hseq hkey h1 h2 h3 h4
    rw [matchHotkey_eq_and]
    simp [hseq, hkey, h1, h2, h3, h4]

/-- Claim C2 witness: a Control-only event matches the key-less
pattern `"Control"` through the modifier-equality sufficiency
direction. -/
theorem matchHotkey_exact_modifiers_witness :
    matchHotkey .unknown
      { key := "z", ctrlKey := true, metaKey := false, shiftKey := false,
        altKey := false } "Control" {} = true :=
  matchHotkey_exact_modifiers.2.1 .unknown
    { key := "z", ctrlKey := true, metaKey := false, shiftKey := false,
      altKey := false } "Control" {}
    (by decide) (by decide) (by decide) (by decide) (by decide) (by decide)

/-- Claim C8: `matchHotkey` returns false unconditionally on every
pattern that parses as a sequence, and on non-sequence patterns it
computes exactly the recognizer's single-step comparison applied to
the pattern's sole step. -/
theorem matchHotkey_rejects_sequences :
    (∀ (env : Platform) (ev : KeyboardEvent) (pattern : String)
        (opts : MatchOptions),
      (parsePattern env pattern opts).isSequence = true →
      matchHotkey env ev pattern opts = false) ∧
    (∀ (env : Platform) (ev : KeyboardEvent) (pattern : String)
        (opts : MatchOptions),
      (parsePattern env pattern opts).isSequence = false →
      matchHotkey env ev pattern opts =
        matchesStep (opts.caseSensitive.getD false)
          ((parsePattern env pattern opts).sequence.getD 0 emptyStep) ev) := by
  constructor
  · intro env ev pattern opts h
    rw [matchHotkey_eq_and]
    simp [h]
  · intro env ev pattern opts h
    have hp := parsePattern_eq_single env pattern opts h
    rw [matchHotkey_eq_and, matchesStep_eq_and, hp]
    simp

/-- Claim C8 witness: the event `g` — which does match the first step
of the sequence — still yields false against the sequence pattern
`"g g"`. -/
theorem matchHotkey_rejects_sequences_witness :
    matchHotkey .unknown gEv "g g" {} = false :=
  matchHotkey_rejects_sequences.1 .unknown gEv "g g" {} (by decide)

/-- Claim C6: the structural invariant of `parsePattern`: a
non-sequence result duplicates its single step at the top level with
`sequence` exactly that one step; a sequence result has null key,
all-false modifiers and at least two steps. -/
theorem parsePattern_structural_invariant :
    ∀ (env : Platform) (pattern : String) (opts : MatchOptions),
      ((parsePattern env pattern opts).isSequence = false →
        (parsePattern env pattern opts).sequence =
          [{ key := (parsePattern env pattern opts).key,
             ctrl := (parsePattern env pattern opts).ctrl,
             meta := (parsePattern env pattern opts).meta,
             shift := (parsePattern env pattern opts).shift,
             alt := (parsePattern env pattern opts).alt }]) ∧
      ((parsePattern env pattern opts).isSequence = true →
        (parsePattern env pattern opts).key = none ∧
        (parsePattern env pattern opts).ctrl = false ∧
        (parsePattern env pattern opts).meta = false ∧
        (parsePattern env pattern opts).shift = false ∧
        (parsePattern env pattern opts).alt = false ∧
        2 ≤ (parsePattern env pattern opts).sequence.length) := by
  intro env pattern opts
  constructor
  · intro h
    rw [parsePattern_eq_single env pattern opts h]
  · intro h
    obtain ⟨heq, hlen⟩ := parsePattern_eq_seq env pattern opts h
    rw [heq]
    refine ⟨rfl, rfl, rfl, rfl, rfl, ?_⟩
    simpa using hlen

/-- Claim C6 witness: the sequence `"g g"` parses with null top-level
key and at least two steps. -/
theorem parsePattern_structural_invariant_witness :
    (parsePattern .unknown "g g" {}).key = none ∧
    2 ≤ (parsePattern .unknown "g g" {}).sequence.length := by
  obtain ⟨h1, _, _, _, _, h6⟩ :=
    (parsePattern_structural_invariant .unknown "g g" {}).2 (by decide)
  exact ⟨h1, h6⟩

/-- Claim C7: parsing is total by construction (the embedding is a
total function on every string); the empty pattern — and a
separator-only pattern — degrade to a single step with null key and
all-false modifiers, and the empty pattern matches exactly the events
holding no modifiers, whatever their key. -/
theorem parsePattern_never_fails :
    ∀ (env : Platform) (opts : MatchOptions) (ev : KeyboardEvent),
      parsePattern env "" opts =
        { key := none, ctrl := false, meta := false, shift := false,
          alt := false, isSequence := false, sequence := [emptyStep] } ∧
      parsePattern env "+" opts =
        { key := none, ctrl := false, meta := false, shift := false,
          alt := false, isSequence := false, sequence := [emptyStep] } ∧
      (matchHotkey env ev "" opts = true ↔
        (ev.ctrlKey = false ∧ ev.metaKey = false ∧ ev.shiftKey = false ∧
         ev.altKey = false)) := by
  intro env opts ev
  refine ⟨rfl, rfl, ?_⟩
  have hbool : matchHotkey env ev "" opts =
      (!ev.ctrlKey && !ev.metaKey && !ev.shiftKey && !ev.altKey) := by
    obtain ⟨k, ec, em, es, ea⟩ := ev
    cases ec <;> cases em <;> cases es <;> cases ea <;> rfl
  rw [hbool]
  simp [Bool.and_eq_true, Bool.not_eq_true', and_assoc]

/-- Claim C7 witness: a bare `q` press with no modifiers held matches
the empty pattern. -/
theorem parsePattern_never_fails_witness :
    matchHotkey .unknown
      { key := "q", ctrlKey := false, metaKey := false, shiftKey := false,
        altKey := false } "" {} = true :=
  (parsePattern_never_fails .unknown {}
    { key := "q", ctrlKey := false, metaKey := false, shiftKey := false,
      altKey := false }).2.2.mpr ⟨rfl, rfl, rfl, rfl⟩

/-- Claim C4 counterexample: with `treatModAsPlatformMeta := false`
the token `mod` is not ignored — it falls through to the key position,
so `parse("mod")` yields key `"Mod"`, not the null key the claim
states. -/
theorem mod_flag_false_counterexample :
    (parsePattern .unknown "mod"
      { treatModAsPlatformMeta := some false }).key = some "Mod" := by
  decide

/-- Claim C4 amended: with the flag false, `mod` sets none of the four
modifier booleans but becomes the step's key, normalized to `"Mod"`;
with the flag true (or defaulted), `mod` sets `meta` when the resolved
platform is mac and `ctrl` on every other platform. -/
theorem mod_token_parsing :
    (∀ env : Platform,
      parsePattern env "mod" { treatModAsPlatformMeta := some false } =
        { key := some "Mod", ctrl := false, meta := false, shift := false,
          alt := false, isSequence := false,
          sequence := [{ key := some "Mod", ctrl := false, meta := false,
                         shift := false, alt := false }] }) ∧
    (∀ (env : Platform) (opts : MatchOptions),
      opts.treatModAsPlatformMeta.getD true = true →
      parseSingle env "mod" opts =
        (if opts.platform.getD env = Platform.mac then
          { key := none, ctrl := false, meta := true, shift := false,
            alt := false }
        else
          { key := none, ctrl := true, meta := false, shift := false,
            alt := false })) := by
  constructor
  · intro env
    rfl
  ·  intro env opts h
     calc parseSingle env "mod" opts
         = parseToken (opts.platform.getD env) (opts.caseSensitive.getD false)
             (opts.treatModAsPlatformMeta.getD true) emptyStep "mod" := rfl
       _ = parseToken (opts.platform.getD env) (opts.caseSensitive.getD false)
             true emptyStep "mod" := by rw [h]
       _ = _ := rfl

/-- Claim C4 witness: on mac with default options, `mod` resolves to
the meta modifier. -/
theorem mod_token_parsing_witness :
    parseSingle .mac "mod" {} =
      { key := none, ctrl := false, meta := true, shift := false,
        alt := false } := by
  have h := mod_token_parsing.2 Platform.mac {} (by decide)
  rw [h]
  decide

/-- Claim C5: when the supplied pattern list contains a sequence
pattern, the handler tracks the first sequence-parsing pattern in list
order — its behavior does not depend on the other entries — and the
simple patterns in the list are dead: an event matching only them
never invokes the handler (second conjunct: a `Ctrl+k` press against
`["Control+k", "g g"]`). -/
theorem first_sequence_pattern_tracked :
    (∀ (env : Platform) (opts : MatchOptions) (l₁ l₂ : List String)
        (s : String),
      (∀ p ∈ l₁, (parsePattern env p opts).isSequence = false) →
      (parsePattern env s opts).isSequence = true →
      createHotkeyHandler env (.list (l₁ ++ s :: l₂)) opts =
        .seqHandler (parsePattern env s opts).sequence
          (opts.caseSensitive.getD false) 0) ∧
    runHandlerCount .unknown
      (createHotkeyHandler .unknown (.list ["Control+k", "g g"]) {})
      [{ time := 0, event := ctrlKEv }] = 0 := by
  refine ⟨?_, by decide⟩
  intro env opts l₁ l₂ s hall hs
  have hfind : (l₁ ++ s :: l₂).find?
      (fun p => (parsePattern env p opts).isSequence) = some s := by
    refine find?_append_first l₁ s l₂ ?_ hs
    intro p hp
    exact hall p hp
  have hany : (l₁ ++ s :: l₂).any
      (fun p => (parsePattern env p opts).isSequence) = true :=
    List.any_eq_true.mpr ⟨s, by simp, hs⟩
  simp [createHotkeyHandler, HotkeyPattern.normalized,
    HotkeyPattern.timeoutMs, hany, hfind]

/-- Claim C5 witness: with `["Control+k", "g g"]` the handler is the
sequence recognizer over `"g g"` with the list path's zero timeout. -/
theorem first_sequence_pattern_tracked_witness :
    createHotkeyHandler .unknown (.list ["Control+k", "g g"]) {} =
      .seqHandler (parsePattern .unknown "g g" {}).sequence false 0 := by
  have h := first_sequence_pattern_tracked.1 .unknown {} ["Control+k"] []
    "g g" (by decide) (by decide)
  simpa using h

/-- Claim C9: each step renders its labels in the fixed order ctrl,
meta, shift, alt, then key, omitting false flags — the third conjunct
shows the output order ignoring the input token order — and in word
style `"Control+k"` formats to `"Ctrl + K"` while the sequence
`"g g"` formats to `"G then G"`. -/
theorem formatPattern_label_order :
    formatPattern .unknown "Control+k" { platform := some .windows } =
      "Ctrl + K" ∧
    formatPattern .unknown "g g" { platform := some .windows } =
      "G then G" ∧
    formatPattern .unknown "Control+Alt+Shift+x"
      { platform := some .windows } = "Ctrl + Shift + Alt + X" := by
  refine ⟨by decide, by decide, by decide⟩

end Hotkeys
